import Mathlib

/-!
# RISC-V semihosting trap and errno dispatcher

A shallow embedding of `components/riscv/include/riscv/semihosting.h`:

* the protocol constants of the header,
* the inline assembly block of `semihosting_call_noerrno` as its assembler lines, the
  directives included, assembled and run over a register file, a byte-addressed memory
  and a debug host, every instruction fetched being logged with its encoding,
* `semihosting_call_noerrno` and `semihosting_call` as state-passing functions.

C `long` is `XLEN` bits wide (ILP32 or LP64), C `int` is 32 bits wide; both are
integers carried with their range.  The debug host is an arbitrary function: at the
`ebreak` it sees the two argument registers and the whole memory, and it answers with
a new host state, a new content for `a0` and a new memory.  Pointers are assumed to
designate storage (dereferencing a null `out_errno` is outside this model).
-/

namespace Semihosting

/-! ## Machine integers -/

/-- Register width of the target: RV32 (ILP32, `long` is 32 bits) or RV64 (LP64). -/
inductive XLen where
  | rv32
  | rv64
  deriving DecidableEq, Repr

/-- Number of bits of a register, and of a C `long`. -/
def XLen.bits : XLen → Nat
  | .rv32 => 32
  | .rv64 => 64

/-- Two-complement reading on `n` bits: reduce modulo `2^n`, then read the result as a
signed `n`-bit quantity. -/
def wrapSigned (n : Nat) (v : Int) : Int :=
  let u := v % 2 ^ n
  if u < 2 ^ (n - 1) then u else u - 2 ^ n

/-- A signed machine integer of `n` bits. -/
structure SInt (n : Nat) where
  val : Int
  lo : -(2 ^ (n - 1)) ≤ val
  hi : val < 2 ^ (n - 1)

/-- Conversion of an integer to `n` bits (the identity on values in range). -/
def SInt.ofInt (n : Nat) (v : Int) : SInt n where
  val := wrapSigned n v
  lo := by
    have hpos : (0 : Int) < 2 ^ n := by positivity
    have h0 : 0 ≤ v % 2 ^ n := Int.emod_nonneg _ (ne_of_gt hpos)
    have hh : (0 : Int) < 2 ^ (n - 1) := by positivity
    have hle : (2 : Int) ^ n ≤ 2 * 2 ^ (n - 1) := by
      cases n with
      | zero => norm_num
      | succ k => simp [pow_succ]; linarith
    unfold wrapSigned
    simp only
    split_ifs with h
    · linarith
    · push_neg at h
      linarith
  hi := by
    have hpos : (0 : Int) < 2 ^ n := by positivity
    have h1 : v % 2 ^ n < 2 ^ n := Int.emod_lt_of_pos _ hpos
    have hh : (0 : Int) < 2 ^ (n - 1) := by positivity
    unfold wrapSigned
    simp only
    split_ifs with h
    · exact h
    · linarith

/-- C `int` on RISC-V: 32 bits. -/
abbrev CInt := SInt 32

/-- C `long` on RISC-V: `XLEN` bits. -/
abbrev CLong (x : XLen) := SInt x.bits

/-- The conversion `(int) v` of a `long`. -/
def longToInt {x : XLen} (v : CLong x) : CInt := SInt.ofInt 32 v.val

/-- The implicit conversion of an `int` to `long`. -/
def intToLong (x : XLen) (v : CInt) : CLong x := SInt.ofInt x.bits v.val

/-- The conversion `(long) p` of a pointer, an address. -/
def ptrToLong (x : XLen) (p : Nat) : CLong x := SInt.ofInt x.bits (Int.ofNat p)

/-- The null pointer. -/
def NULL : Nat := 0

/-! ## Protocol constants -/

/-- Set/clear breakpoint call number. -/
def ESP_SEMIHOSTING_SYS_BREAKPOINT_SET : Nat := 0x66

/-- Set/clear watchpoint call number. -/
def ESP_SEMIHOSTING_SYS_WATCHPOINT_SET : Nat := 0x67

/-- Watch for reads: `(1UL << 0)`. -/
def ESP_SEMIHOSTING_WP_FLG_RD : Nat := 1 <<< 0

/-- Watch for writes: `(1UL << 1)`. -/
def ESP_SEMIHOSTING_WP_FLG_WR : Nat := 1 <<< 1

/-- The local `const int semihosting_sys_errno = 0x13` of `semihosting_call`. -/
def semihosting_sys_errno : CInt := SInt.ofInt 32 0x13

/-! ## Memory -/

/-- Byte-addressed target memory. -/
abbrev Mem := Nat → Nat

/-- Little-endian load of `k` bytes starting at `p`. -/
def loadBytes (mem : Mem) : Nat → Nat → Nat
  | _, 0 => 0
  | p, k + 1 => mem p % 256 + 256 * loadBytes mem (p + 1) k

/-- Little-endian store of the low `k` bytes of `u` starting at `p`. -/
def storeBytes (mem : Mem) (p k u : Nat) : Mem :=
  fun a => if p ≤ a ∧ a < p + k then (u / 256 ^ (a - p)) % 256 else mem a

/-- The load `*p` of an `int`. -/
def loadInt (mem : Mem) (p : Nat) : CInt := SInt.ofInt 32 (Int.ofNat (loadBytes mem p 4))

/-- The store `*p = v` of an `int`. -/
def storeInt (mem : Mem) (p : Nat) (v : CInt) : Mem :=
  storeBytes mem p 4 (v.val % 2 ^ 32).toNat

/-- The load `*p` of a `long`. -/
def loadLong (x : XLen) (mem : Mem) (p : Nat) : CLong x :=
  SInt.ofInt x.bits (Int.ofNat (loadBytes mem p (x.bits / 8)))

/-! ## Debug host and machine state -/

/-- What the host leaves behind when it has serviced a trap. -/
structure HostReply (x : XLen) (H : Type) where
  state : H
  a0 : CLong x
  mem : Mem

/-- A debug host: from its own state, the registers `a0` and `a1` and the target
memory, to its reply. -/
abbrev Host (x : XLen) (H : Type) := H → CLong x → CLong x → Mem → HostReply x H

/-- An instruction as it lies in the instruction stream: its length in bytes and its
bits. -/
structure Code where
  size : Nat
  word : Nat
  deriving DecidableEq, Repr

/-- Target and host state; `traps` logs `(a0, a1)` at every trap taken, `fetched` logs
every instruction executed. -/
structure World (x : XLen) (H : Type) where
  regs : Nat → CLong x
  mem : Mem
  hostState : H
  traps : List (CLong x × CLong x)
  fetched : List Code

/-- Register number of `a0` (`x10`). -/
def regA0 : Nat := 10

/-- Register number of `a1` (`x11`). -/
def regA1 : Nat := 11

/-- Register read; `x0` is hard-wired to zero. -/
def readReg {x : XLen} (rf : Nat → CLong x) (r : Nat) : CLong x :=
  if r = 0 then SInt.ofInt x.bits 0 else rf r

/-- Register write; writes to `x0` are discarded. -/
def writeReg {x : XLen} (rf : Nat → CLong x) (r : Nat) (v : CLong x) : Nat → CLong x :=
  if r = 0 then rf else fun k => if k = r then v else rf k

/-! ## The trap sequence -/

/-- The instructions that occur in the inline assembly of the header. -/
inductive Instr where
  | slli (rd rs1 shamt : Nat)
  | srai (rd rs1 shamt : Nat)
  | ebreak
  deriving DecidableEq, Repr

/-- Base ISA encoding (uncompressed, `.option norvc`) of an instruction: I-type layout
`imm[31:20] rs1[19:15] funct3[14:12] rd[11:7] opcode[6:0]`, `OP-IMM = 0x13`,
`SLLI` has `funct3 = 1`, `SRAI` has `funct3 = 5` and bit 30 set, `EBREAK` is
`SYSTEM = 0x73` with immediate 1. -/
def Instr.encode : Instr → Nat
  | .slli rd rs1 shamt => shamt <<< 20 ||| rs1 <<< 15 ||| 1 <<< 12 ||| rd <<< 7 ||| 0x13
  | .srai rd rs1 shamt =>
      1 <<< 30 ||| shamt <<< 20 ||| rs1 <<< 15 ||| 5 <<< 12 ||| rd <<< 7 ||| 0x13
  | .ebreak => 1 <<< 20 ||| 0x73

/-- Compressed (16-bit, extension C) encoding of the instructions that have one:
`C.SLLI` (quadrant 2, `funct3 = 0`), `C.SRAI` (quadrant 1, `funct3 = 4`, bits 11:10
`= 01`, register `x8..x15`), `C.EBREAK = 0x9002`. -/
def Instr.encodeC : Instr → Nat
  | .slli rd _ shamt => (shamt / 32 % 2) <<< 12 ||| rd <<< 7 ||| (shamt % 32) <<< 2 ||| 2
  | .srai rd _ shamt =>
      4 <<< 13 ||| (shamt / 32 % 2) <<< 12 ||| 1 <<< 10 ||| (rd - 8) <<< 7 |||
        (shamt % 32) <<< 2 ||| 1
  | .ebreak => 0x9002

/-- Register number of `zero` (`x0`). -/
def regZero : Nat := 0

/-- A line of assembler text: one of the `.option` directives of the header, or an
instruction. -/
inductive AsmLine where
  | optionPush
  | optionNorvc
  | optionPop
  | instr (i : Instr)
  deriving DecidableEq, Repr

/-- The body of the `__asm__ __volatile__` statement of `semihosting_call_noerrno`, line
by line. -/
def trapAsm : List AsmLine :=
  [.optionPush,
   .optionNorvc,
   .instr (.slli regZero regZero 0x1f),
   .instr .ebreak,
   .instr (.srai regZero regZero 0x7),
   .optionPop]

/-- An assembled instruction: the instruction and whether the assembler chose its
16-bit form. -/
structure Insn where
  instr : Instr
  compressed : Bool
  deriving DecidableEq, Repr

/-- The bits of an assembled instruction. -/
def Insn.code (i : Insn) : Code :=
  if i.compressed then ⟨2, i.instr.encodeC⟩ else ⟨4, i.instr.encode⟩

/-- The assembler over the lines of an asm body. `rvc` tells whether compressed
instructions are currently allowed and `saved` is the `.option push` stack; while they
are allowed, `relax` is the assembler's choice of the instructions it emits in 16-bit
form. `.option norvc` disallows them, `.option pop` restores the saved setting. -/
def assembleLines (relax : Instr → Bool) : Bool → List Bool → List AsmLine → List Insn
  | _, _, [] => []
  | rvc, saved, .optionPush :: ls => assembleLines relax rvc (rvc :: saved) ls
  | _, saved, .optionNorvc :: ls => assembleLines relax false saved ls
  | rvc, [], .optionPop :: ls => assembleLines relax rvc [] ls
  | _, r :: saved, .optionPop :: ls => assembleLines relax r saved ls
  | rvc, saved, .instr i :: ls => ⟨i, rvc && relax i⟩ :: assembleLines relax rvc saved ls

/-- Assembly of an asm body entered with compression allowed (`rvc = true`, as under
`-march=rv32imc`) or not. -/
def assemble (rvc : Bool) (relax : Instr → Bool) (ls : List AsmLine) : List Insn :=
  assembleLines relax rvc [] ls

/-- The host services a trap: it is handed `a0`, `a1` and the memory, and its reply
replaces `a0` and the memory (operand `"+r"(a0)`, clobber `"memory"`). -/
def hostTrap {x : XLen} {H : Type} (host : Host x H) (w : World x H) : World x H :=
  let r := host w.hostState (readReg w.regs regA0) (readReg w.regs regA1) w.mem
  { regs := writeReg w.regs regA0 r.a0
    mem := r.mem
    hostState := r.state
    traps := w.traps ++ [(readReg w.regs regA0, readReg w.regs regA1)]
    fetched := w.fetched }

/-- One instruction; it is logged as fetched, then executed. The shifts are the
RV32I/RV64I ones (a compressed instruction behaves as its expansion); at `ebreak` the
debugger `dbg` gains control of the whole state. -/
def execInstr {x : XLen} {H : Type} (dbg : World x H → World x H) (i : Insn)
    (w : World x H) : World x H :=
  let w1 : World x H := { w with fetched := w.fetched ++ [i.code] }
  match i.instr with
  | .slli rd rs1 shamt =>
      { w1 with regs := writeReg w1.regs rd
                  (SInt.ofInt x.bits ((readReg w1.regs rs1).val * 2 ^ shamt)) }
  | .srai rd rs1 shamt =>
      { w1 with regs := writeReg w1.regs rd
                  (SInt.ofInt x.bits ((readReg w1.regs rs1).val / 2 ^ shamt)) }
  | .ebreak => dbg w1

/-- A straight-line instruction sequence. -/
def execAsm {x : XLen} {H : Type} (dbg : World x H → World x H) :
    List Insn → World x H → World x H
  | [], w => w
  | i :: is, w => execAsm dbg is (execInstr dbg i w)

/-! ## The two functions of the header -/

/-- Embedding of `semihosting_call_noerrno(id, data)`: bind `a0 = id` and
`a1 = (long) data`, run the assembled asm body with the semihosting host as debugger,
return `a0`. The body is assembled as by an assembler entered with compression allowed
and using it wherever it may. -/
def semihosting_call_noerrno {x : XLen} {H : Type} (host : Host x H)
    (id : CLong x) (data : Nat) (w : World x H) : CLong x × World x H :=
  let w0 : World x H :=
    { w with regs := writeReg (writeReg w.regs regA0 id) regA1 (ptrToLong x data) }
  let w1 := execAsm (hostTrap host) (assemble true (fun _ => true) trapAsm) w0
  (readReg w1.regs regA0, w1)

/-- Embedding of `semihosting_call(id, data, out_errno)`. -/
def semihosting_call {x : XLen} {H : Type} (host : Host x H)
    (id : CLong x) (data : Nat) (out_errno : Nat) (w : World x H) :
    CLong x × World x H :=
  let r := semihosting_call_noerrno host id data w
  if r.1.val < 0 then
    let e := semihosting_call_noerrno host (intToLong x semihosting_sys_errno) NULL r.2
    (r.1, { e.2 with mem := storeInt e.2.mem out_errno (longToInt e.1) })
  else
    (r.1, r.2)

/-- The errno-fetch trap that `semihosting_call` issues on its failure path:
`semihosting_call_noerrno(semihosting_sys_errno, NULL)`. -/
def errnoTrap {x : XLen} {H : Type} (host : Host x H) (w : World x H) :
    CLong x × World x H :=
  semihosting_call_noerrno host (intToLong x semihosting_sys_errno) NULL w

/-! ## `semihosting_call` trap by trap

The same function cut at its two traps, so that another context can be scheduled
between them. -/

/-- Control points of `semihosting_call`: before the primary trap, between the primary
trap and the test of its result, after the `return`. -/
inductive CallPc (x : XLen) where
  | entry
  | afterPrimary (ret : CLong x)
  | returned (ret : CLong x)

/-- One scheduling quantum of `semihosting_call`: it runs up to and including the next
trap (and the store that follows the errno trap). -/
def semihosting_call_step {x : XLen} {H : Type} (host : Host x H)
    (id : CLong x) (data : Nat) (out_errno : Nat) :
    CallPc x × World x H → CallPc x × World x H
  | (.entry, w) =>
      let r := semihosting_call_noerrno host id data w
      (.afterPrimary r.1, r.2)
  | (.afterPrimary ret, w) =>
      if ret.val < 0 then
        let e := semihosting_call_noerrno host (intToLong x semihosting_sys_errno) NULL w
        (.returned ret, { e.2 with mem := storeInt e.2.mem out_errno (longToInt e.1) })
      else
        (.returned ret, w)
  | (.returned ret, w) => (.returned ret, w)

/-- Another context is scheduled and performs the semihosting call `(id, data)`. -/
def preemptingCall {x : XLen} {H : Type} (host : Host x H) (id : CLong x) (data : Nat)
    (w : World x H) : World x H :=
  (semihosting_call_noerrno host id data w).2

/-- The run of `semihosting_call` in which another context performs a semihosting call
between the primary trap and the errno trap. -/
def semihosting_call_preempted {x : XLen} {H : Type} (host : Host x H)
    (id : CLong x) (data : Nat) (out_errno : Nat) (id2 : CLong x) (data2 : Nat)
    (w : World x H) : CallPc x × World x H :=
  let s1 := semihosting_call_step host id data out_errno (.entry, w)
  semihosting_call_step host id data out_errno (s1.1, preemptingCall host id2 data2 s1.2)

/-! ## Test hosts -/

/-- State of the mock host of the scenarios: the single last-errno slot and the table of
active breakpoints `(id, addr)`. -/
structure MockState where
  lastErrno : Int
  breakpoints : List (Int × Int)

/-- Host errno for an invalid breakpoint id (`EINVAL`). -/
def mockEINVAL : Int := 22

/-- Host errno for a call the mock host does not implement (`ENOSYS`). -/
def mockENOSYS : Int := 38

/-- Mock host with 8 breakpoint slots. It never writes target memory. Call `0x13`
answers the last errno; call `0x66` reads the block `[set, id, addr]` behind `a1`; any
other call fails with `ENOSYS`. -/
def mockHost (x : XLen) : Host x MockState := fun s a0 a1 mem =>
  let p := a1.val.toNat
  let ws := x.bits / 8
  if a0.val = 0x13 then
    ⟨s, SInt.ofInt x.bits s.lastErrno, mem⟩
  else if a0.val = 0x66 then
    let set := (loadLong x mem p).val
    let id := (loadLong x mem (p + ws)).val
    let addr := (loadLong x mem (p + 2 * ws)).val
    if 0 ≤ id ∧ id < 8 then
      let others := s.breakpoints.filter (fun b => b.1 ≠ id)
      ⟨{ s with breakpoints := if set ≠ 0 then (id, addr) :: others else others },
        SInt.ofInt x.bits 0, mem⟩
    else
      ⟨{ s with lastErrno := mockEINVAL }, SInt.ofInt x.bits (-1), mem⟩
  else
    ⟨{ s with lastErrno := mockENOSYS }, SInt.ofInt x.bits (-1), mem⟩

/-- A 64-bit host whose errno answer does not fit an `int`: every call fails with `-1`
and call `0x13` answers `2^32 + 22`. -/
def wideErrnoHost : Host .rv64 Unit := fun s a0 _ mem =>
  if a0.val = 0x13 then ⟨s, SInt.ofInt 64 (2 ^ 32 + 22), mem⟩
  else ⟨s, SInt.ofInt 64 (-1), mem⟩

/-- A host that services every call by writing the byte `7` at the address in `a1` (as a
read-like call fills a buffer) and answers `0`. -/
def pokeHost (x : XLen) : Host x Unit := fun s _ a1 mem =>
  ⟨s, SInt.ofInt x.bits 0, storeBytes mem a1.val.toNat 1 7⟩

/-- A host that leaves the return slot `a0` and the memory as it found them. -/
def idleHost (x : XLen) : Host x Unit := fun s a0 _ mem => ⟨s, a0, mem⟩

/-- An initial world: registers and memory cleared, no trap taken yet. -/
def World.init (x : XLen) {H : Type} (h : H) (mem : Mem) : World x H :=
  { regs := fun _ => SInt.ofInt x.bits 0, mem := mem, hostState := h, traps := [],
    fetched := [] }

/-- Memory holding the little-endian 32-bit words `ws` from address `p` on, zero
elsewhere. -/
def memOfWords32 (p : Nat) : List Nat → Mem
  | [] => fun _ => 0
  | v :: vs => storeBytes (memOfWords32 (p + 4) vs) p 4 v

/-- Address of the argument block in the scenarios. -/
def blockAddr : Nat := 0x100

/-- Address of the errno output in the scenarios. -/
def errnoAddr : Nat := 0x200

/-- Scenario C on RV32: the block `[set = 1, id = 99, addr = 0]` at `blockAddr`. -/
def scenarioC : World .rv32 MockState :=
  World.init .rv32 ⟨0, []⟩ (memOfWords32 blockAddr [1, 99, 0])

/-- Scenario A on RV32: the block `[set = 1, id = 2, addr = 0x40001000]` at `blockAddr`. -/
def scenarioA : World .rv32 MockState :=
  World.init .rv32 ⟨0, []⟩ (memOfWords32 blockAddr [1, 2, 0x40001000])

/-- Scenario C on RV64: the block `[set = 1, id = 99, addr = 0]` of 64-bit words at
`blockAddr`. -/
def scenarioC64 : World .rv64 MockState :=
  World.init .rv64 ⟨0, []⟩
    (storeBytes (storeBytes (fun _ => 0) (blockAddr + 8) 8 99) blockAddr 8 1)

/-! ## Machine integers: basic facts -/

theorem SInt.eq_of_val {n : Nat} (a b : SInt n) (h : a.val = b.val) : a = b := by
  cases a
  cases b
  simp_all

theorem SInt.val_ofInt (n : Nat) (v : Int) : (SInt.ofInt n v).val = wrapSigned n v := rfl

theorem wrapSigned_emod (n : Nat) (v : Int) : wrapSigned n (v % 2 ^ n) = wrapSigned n v := by
  unfold wrapSigned
  simp [Int.emod_emod_of_dvd]

theorem wrapSigned_of_range (n : Nat) (hn : 0 < n) (v : Int)
    (lo : -(2 ^ (n - 1)) ≤ v) (hi : v < 2 ^ (n - 1)) : wrapSigned n v = v := by
  have hm : (2 : Int) ^ n = 2 * 2 ^ (n - 1) := by
    cases n with
    | zero => omega
    | succ k => simp [pow_succ]; ring
  have hh : (0 : Int) < 2 ^ (n - 1) := by positivity
  unfold wrapSigned
  simp only
  by_cases h0 : 0 ≤ v
  · have hv : v % 2 ^ n = v := Int.emod_eq_of_lt h0 (by linarith)
    rw [hv, if_pos hi]
  · push_neg at h0
    have hv : v % 2 ^ n = v + 2 ^ n := by
      rw [← Int.add_emod_self]
      exact Int.emod_eq_of_lt (by linarith) (by linarith)
    rw [hv, if_neg (by linarith)]
    ring

theorem XLen.bits_pos (x : XLen) : 0 < x.bits := by
  cases x <;> decide

theorem longToInt_val_of_range {x : XLen} (v : CLong x)
    (lo : -(2 ^ 31) ≤ v.val) (hi : v.val < 2 ^ 31) : (longToInt v).val = v.val :=
  wrapSigned_of_range 32 (by decide) v.val lo hi

theorem longToInt_rv32 (v : CLong .rv32) : (longToInt v).val = v.val :=
  wrapSigned_of_range 32 (by decide) v.val v.lo v.hi

/-! ## Memory: basic facts -/

theorem storeBytes_outside (mem : Mem) (p k u a : Nat) (h : a < p ∨ p + k ≤ a) :
    storeBytes mem p k u a = mem a := by
  unfold storeBytes
  rw [if_neg]
  omega

theorem loadBytes_congr (m1 m2 : Mem) (k : Nat) :
    ∀ p : Nat, (∀ a, p ≤ a → a < p + k → m1 a = m2 a) →
      loadBytes m1 p k = loadBytes m2 p k := by
  induction k with
  | zero => intro p _; rfl
  | succ j ih =>
    intro p h
    simp only [loadBytes]
    rw [h p (le_refl p) (by omega), ih (p + 1) (fun a h1 h2 => h a (by omega) (by omega))]

theorem loadBytes_storeBytes_four (mem : Mem) (p u : Nat) :
    loadBytes (storeBytes mem p 4 u) p 4 = u % 2 ^ 32 := by
  have e1 : p + 1 - p = 1 := by omega
  have e2 : p + 1 + 1 - p = 2 := by omega
  have e3 : p + 1 + 1 + 1 - p = 3 := by omega
  simp only [loadBytes, storeBytes, e1, e2, e3, Nat.sub_self]
  rw [if_pos (by omega), if_pos (by omega), if_pos (by omega), if_pos (by omega)]
  norm_num
  omega

theorem loadInt_storeInt (mem : Mem) (p : Nat) (v : CInt) :
    loadInt (storeInt mem p v) p = v := by
  have hpos : (0 : Int) < 2 ^ 32 := by norm_num
  have h0 : 0 ≤ v.val % 2 ^ 32 := Int.emod_nonneg _ (ne_of_gt hpos)
  have h1 : v.val % 2 ^ 32 < 2 ^ 32 := Int.emod_lt_of_pos _ hpos
  apply SInt.eq_of_val
  unfold loadInt storeInt
  rw [loadBytes_storeBytes_four]
  have hu : ((v.val % 2 ^ 32).toNat % 2 ^ 32 : Nat) = (v.val % 2 ^ 32).toNat := by
    apply Nat.mod_eq_of_lt
    omega
  rw [hu]
  rw [SInt.val_ofInt]
  have hc : Int.ofNat (v.val % 2 ^ 32).toNat = v.val % 2 ^ 32 := Int.toNat_of_nonneg h0
  rw [hc, wrapSigned_emod]
  exact wrapSigned_of_range 32 (by decide) v.val v.lo v.hi

theorem loadInt_congr (m1 m2 : Mem) (p : Nat)
    (h : ∀ a, p ≤ a → a < p + 4 → m1 a = m2 a) : loadInt m1 p = loadInt m2 p := by
  unfold loadInt
  rw [loadBytes_congr m1 m2 4 p h]

theorem loadLong_congr (x : XLen) (m1 m2 : Mem) (p : Nat)
    (h : ∀ a, p ≤ a → a < p + x.bits / 8 → m1 a = m2 a) :
    loadLong x m1 p = loadLong x m2 p := by
  unfold loadLong
  rw [loadBytes_congr m1 m2 (x.bits / 8) p h]

/-! ## The trap, unfolded -/

theorem noerrno_eq {x : XLen} {H : Type} (host : Host x H) (id : CLong x) (data : Nat)
    (w : World x H) :
    semihosting_call_noerrno host id data w =
      ((host w.hostState id (ptrToLong x data) w.mem).a0,
       { regs := writeReg (writeReg (writeReg w.regs regA0 id) regA1 (ptrToLong x data)) regA0
                   (host w.hostState id (ptrToLong x data) w.mem).a0
         mem := (host w.hostState id (ptrToLong x data) w.mem).mem
         hostState := (host w.hostState id (ptrToLong x data) w.mem).state
         traps := w.traps ++ [(id, ptrToLong x data)]
         fetched := w.fetched ++
           [Code.mk 4 0x01f01013, Code.mk 4 0x00100073, Code.mk 4 0x40705013] }) := by
  simp [semihosting_call_noerrno, execAsm, trapAsm, assemble, assembleLines, execInstr,
    hostTrap, writeReg, readReg, regZero, regA0, regA1, Insn.code, Instr.encode]

theorem call_of_nonneg {x : XLen} {H : Type} (host : Host x H) (id : CLong x)
    (data out_errno : Nat) (w : World x H)
    (h : 0 ≤ (semihosting_call_noerrno host id data w).1.val) :
    semihosting_call host id data out_errno w = semihosting_call_noerrno host id data w := by
  unfold semihosting_call
  simp only
  rw [if_neg (by omega)]

theorem call_of_neg {x : XLen} {H : Type} (host : Host x H) (id : CLong x)
    (data out_errno : Nat) (w : World x H)
    (h : (semihosting_call_noerrno host id data w).1.val < 0) :
    semihosting_call host id data out_errno w =
      ((semihosting_call_noerrno host id data w).1,
       { (errnoTrap host (semihosting_call_noerrno host id data w).2).2 with
         mem := storeInt (errnoTrap host (semihosting_call_noerrno host id data w).2).2.mem
                  out_errno
                  (longToInt (errnoTrap host (semihosting_call_noerrno host id data w).2).1) }) := by
  unfold semihosting_call errnoTrap
  simp only
  rw [if_pos h]

theorem null_val (x : XLen) : (ptrToLong x NULL).val = 0 := by
  cases x <;> decide

theorem mockHost_mem (x : XLen) (s : MockState) (a0 a1 : CLong x) (m : Mem) :
    (mockHost x s a0 a1 m).mem = m := by
  unfold mockHost
  simp only
  split_ifs <;> rfl

/-! ## The claims -/

/-- C1: for every host, call id, argument block pointer (null included) and prior
content of memory, hence of the errno output, `semihosting_call` returns exactly the
value of the primary trap `semihosting_call_noerrno(id, data)`, which is what the host
left in `a0`; this holds on the success path and on the failure path alike. -/
theorem C1_call_returns_primary_result {x : XLen} {H : Type} (host : Host x H)
    (id : CLong x) (data out_errno : Nat) (w : World x H) :
    (semihosting_call host id data out_errno w).1 =
        (semihosting_call_noerrno host id data w).1 ∧
      (semihosting_call host id data out_errno w).1 =
        (host w.hostState id (ptrToLong x data) w.mem).a0 := by
  have h : (semihosting_call host id data out_errno w).1 =
      (semihosting_call_noerrno host id data w).1 := by
    unfold semihosting_call
    simp only
    split_ifs <;> rfl
  refine ⟨h, ?_⟩
  rw [h, noerrno_eq]

/-- C2 as stated fails: with a host that answers `0` and writes back through the
argument pointer, and the errno output placed where the host writes, the primary trap
is non-negative and yet the errno output holds `7` after the call where it held `0`
before. -/
theorem C2_counterexample :
    0 ≤ (semihosting_call_noerrno (pokeHost .rv32) (SInt.ofInt 32 0x66) errnoAddr
          (World.init .rv32 () (fun _ => 0))).1.val ∧
      (loadInt (World.init .rv32 () (fun _ => 0)).mem errnoAddr).val = 0 ∧
      (loadInt (semihosting_call (pokeHost .rv32) (SInt.ofInt 32 0x66) errnoAddr errnoAddr
          (World.init .rv32 () (fun _ => 0))).2.mem errnoAddr).val = 7 := by
  decide

/-- C2 amended (errno gating): when the primary trap returns a non-negative value,
`semihosting_call` does nothing beyond the primary trap: the whole state, memory
included, is the one the host left at the end of the primary trap, so the target stores
nothing; the storage behind `out_errno` therefore holds the value it held before the
call whenever the host itself did not write those four bytes. -/
theorem C2_errno_gating {x : XLen} {H : Type} (host : Host x H)
    (id : CLong x) (data out_errno : Nat) (w : World x H)
    (h : 0 ≤ (semihosting_call_noerrno host id data w).1.val) :
    (semihosting_call host id data out_errno w).2 =
        (semihosting_call_noerrno host id data w).2 ∧
      (semihosting_call host id data out_errno w).2.mem =
        (host w.hostState id (ptrToLong x data) w.mem).mem ∧
      ((∀ a, out_errno ≤ a → a < out_errno + 4 →
          (host w.hostState id (ptrToLong x data) w.mem).mem a = w.mem a) →
        loadInt (semihosting_call host id data out_errno w).2.mem out_errno =
          loadInt w.mem out_errno) := by
  have hm : (semihosting_call host id data out_errno w).2.mem =
      (host w.hostState id (ptrToLong x data) w.mem).mem := by
    rw [call_of_nonneg host id data out_errno w h, noerrno_eq]
  refine ⟨by rw [call_of_nonneg host id data out_errno w h], hm, ?_⟩
  intro hframe
  rw [hm]
  exact loadInt_congr _ _ _ hframe

/-- Scenario A: the mock host accepts breakpoint 2, the result is `0` and the errno
output keeps its prior content. -/
theorem C2_errno_gating_witness :
    0 ≤ (semihosting_call_noerrno (mockHost .rv32) (SInt.ofInt 32 0x66) blockAddr
          scenarioA).1.val ∧
      loadInt (semihosting_call (mockHost .rv32) (SInt.ofInt 32 0x66) blockAddr errnoAddr
          scenarioA).2.mem errnoAddr = loadInt scenarioA.mem errnoAddr :=
  ⟨by decide,
   (C2_errno_gating (mockHost .rv32) (SInt.ofInt 32 0x66) blockAddr errnoAddr scenarioA
      (by decide)).2.2 (fun _ _ _ => by rw [mockHost_mem])⟩

/-- C3 as stated fails when `long` is 64 bits wide: the host answers `-1` to call
`0x66` and `E = 2^32 + 22` to the errno fetch; the errno output is `22`, not `E`. -/
theorem C3_counterexample :
    (semihosting_call_noerrno wideErrnoHost (SInt.ofInt 64 0x66) blockAddr
        (World.init .rv64 () (fun _ => 0))).1.val = -1 ∧
      (errnoTrap wideErrnoHost
        (semihosting_call_noerrno wideErrnoHost (SInt.ofInt 64 0x66) blockAddr
          (World.init .rv64 () (fun _ => 0))).2).1.val = 2 ^ 32 + 22 ∧
      (loadInt (semihosting_call wideErrnoHost (SInt.ofInt 64 0x66) blockAddr errnoAddr
          (World.init .rv64 () (fun _ => 0))).2.mem errnoAddr).val = 22 ∧
      (loadInt (semihosting_call wideErrnoHost (SInt.ofInt 64 0x66) blockAddr errnoAddr
          (World.init .rv64 () (fun _ => 0))).2.mem errnoAddr).val ≠
        (errnoTrap wideErrnoHost
          (semihosting_call_noerrno wideErrnoHost (SInt.ofInt 64 0x66) blockAddr
            (World.init .rv64 () (fun _ => 0))).2).1.val := by
  decide

/-- C3 amended (errno on failure): when the primary trap returns a negative result and
the errno-fetch trap issued right after it returns `E`, `semihosting_call` returns that
negative result and the errno output holds `(int) E`; that is `E` exactly whenever `E`
is representable as an `int`, which is always the case when `long` is 32 bits wide. -/
theorem C3_errno_on_failure {x : XLen} {H : Type} (host : Host x H)
    (id : CLong x) (data out_errno : Nat) (w : World x H)
    (h : (semihosting_call_noerrno host id data w).1.val < 0) :
    (semihosting_call host id data out_errno w).1 =
        (semihosting_call_noerrno host id data w).1 ∧
      loadInt (semihosting_call host id data out_errno w).2.mem out_errno =
        longToInt (errnoTrap host (semihosting_call_noerrno host id data w).2).1 ∧
      (-(2 ^ 31) ≤ (errnoTrap host (semihosting_call_noerrno host id data w).2).1.val →
        (errnoTrap host (semihosting_call_noerrno host id data w).2).1.val < 2 ^ 31 →
        (loadInt (semihosting_call host id data out_errno w).2.mem out_errno).val =
          (errnoTrap host (semihosting_call_noerrno host id data w).2).1.val) ∧
      (x = .rv32 →
        (loadInt (semihosting_call host id data out_errno w).2.mem out_errno).val =
          (errnoTrap host (semihosting_call_noerrno host id data w).2).1.val) := by
  have hl : loadInt (semihosting_call host id data out_errno w).2.mem out_errno =
      longToInt (errnoTrap host (semihosting_call_noerrno host id data w).2).1 := by
    rw [call_of_neg host id data out_errno w h]
    exact loadInt_storeInt _ _ _
  refine ⟨by rw [call_of_neg host id data out_errno w h], hl, ?_, ?_⟩
  · intro lo hi
    rw [hl]
    exact longToInt_val_of_range _ lo hi
  · intro hx
    subst hx
    rw [hl]
    exact longToInt_rv32 _

/-- Scenario C: the mock host rejects breakpoint id 99 with `-1` and answers `22` to
the errno fetch; the dispatcher reports `(-1, 22)`. -/
theorem C3_errno_on_failure_witness :
    (semihosting_call_noerrno (mockHost .rv32) (SInt.ofInt 32 0x66) blockAddr
        scenarioC).1.val < 0 ∧
      (semihosting_call (mockHost .rv32) (SInt.ofInt 32 0x66) blockAddr errnoAddr
        scenarioC).1.val = -1 ∧
      (errnoTrap (mockHost .rv32)
        (semihosting_call_noerrno (mockHost .rv32) (SInt.ofInt 32 0x66) blockAddr
          scenarioC).2).1.val = 22 ∧
      (loadInt (semihosting_call (mockHost .rv32) (SInt.ofInt 32 0x66) blockAddr errnoAddr
        scenarioC).2.mem errnoAddr).val = 22 :=
  ⟨by decide,
   by
    rw [(C3_errno_on_failure (mockHost .rv32) (SInt.ofInt 32 0x66) blockAddr errnoAddr
      scenarioC (by decide)).1]
    decide,
   by decide,
   by
    rw [(C3_errno_on_failure (mockHost .rv32) (SInt.ofInt 32 0x66) blockAddr errnoAddr
      scenarioC (by decide)).2.2.2 rfl]
    decide⟩

/-- C5: `semihosting_call_noerrno(id, data)` consults the host once, handing it the call
id in `a0` and `(long) data` in `a1` (zero for null, the address itself when it is below
`2^(XLEN-1)`), and returns exactly what the host left in `a0`; state and memory are the
ones of the host reply; for a host that leaves `a0` as it found it the result is the
call id. -/
theorem C5_noerrno_raw_exchange {x : XLen} {H : Type} (host : Host x H)
    (id : CLong x) (data : Nat) (w : World x H) :
    (semihosting_call_noerrno host id data w).1 =
        (host w.hostState id (ptrToLong x data) w.mem).a0 ∧
      (semihosting_call_noerrno host id data w).2.hostState =
        (host w.hostState id (ptrToLong x data) w.mem).state ∧
      (semihosting_call_noerrno host id data w).2.mem =
        (host w.hostState id (ptrToLong x data) w.mem).mem ∧
      (semihosting_call_noerrno host id data w).2.traps =
        w.traps ++ [(id, ptrToLong x data)] ∧
      (ptrToLong x NULL).val = 0 ∧
      ((data : Int) < 2 ^ (x.bits - 1) → (ptrToLong x data).val = data) ∧
      ((host w.hostState id (ptrToLong x data) w.mem).a0 = id →
        (semihosting_call_noerrno host id data w).1 = id) := by
  rw [noerrno_eq]
  refine ⟨rfl, rfl, rfl, rfl, null_val x, ?_, fun h => h⟩
  intro hd
  refine wrapSigned_of_range x.bits x.bits_pos (Int.ofNat data) ?_ hd
  have hh : (0 : Int) < 2 ^ (x.bits - 1) := by positivity
  have : (0 : Int) ≤ Int.ofNat data := Int.ofNat_nonneg data
  linarith

/-- With a host that leaves `a0` untouched, call `0x66` on the block at `0x100` returns
`0x66`, and the host was handed `(0x66, 0x100)`. -/
theorem C5_noerrno_raw_exchange_witness :
    (semihosting_call_noerrno (idleHost .rv32) (SInt.ofInt 32 0x66) blockAddr
        (World.init .rv32 () (fun _ => 0))).1 = SInt.ofInt 32 0x66 ∧
      (ptrToLong .rv32 blockAddr).val = 0x100 :=
  ⟨(C5_noerrno_raw_exchange (idleHost .rv32) (SInt.ofInt 32 0x66) blockAddr
      (World.init .rv32 () (fun _ => 0))).2.2.2.2.2.2 rfl,
   (C5_noerrno_raw_exchange (idleHost .rv32) (SInt.ofInt 32 0x66) blockAddr
      (World.init .rv32 () (fun _ => 0))).2.2.2.2.2.1 (by decide)⟩

/-- C7: the protocol constants are `0x66`, `0x67` and, for the errno call of
`semihosting_call`, `0x13`, pairwise distinct; the watchpoint flags are bit 0 (value 1)
and bit 1 (value 2), they are disjoint and their union is `0b11`. -/
theorem C7_protocol_constants :
    ESP_SEMIHOSTING_SYS_BREAKPOINT_SET = 0x66 ∧
      ESP_SEMIHOSTING_SYS_WATCHPOINT_SET = 0x67 ∧
      semihosting_sys_errno.val = 0x13 ∧
      ESP_SEMIHOSTING_SYS_BREAKPOINT_SET ≠ ESP_SEMIHOSTING_SYS_WATCHPOINT_SET ∧
      (ESP_SEMIHOSTING_SYS_BREAKPOINT_SET : Int) ≠ semihosting_sys_errno.val ∧
      (ESP_SEMIHOSTING_SYS_WATCHPOINT_SET : Int) ≠ semihosting_sys_errno.val ∧
      ESP_SEMIHOSTING_WP_FLG_RD = 2 ^ 0 ∧
      ESP_SEMIHOSTING_WP_FLG_RD = 1 ∧
      ESP_SEMIHOSTING_WP_FLG_WR = 2 ^ 1 ∧
      ESP_SEMIHOSTING_WP_FLG_WR = 2 ∧
      ESP_SEMIHOSTING_WP_FLG_RD &&& ESP_SEMIHOSTING_WP_FLG_WR = 0 ∧
      ESP_SEMIHOSTING_WP_FLG_RD ||| ESP_SEMIHOSTING_WP_FLG_WR = 0b11 := by
  decide

/-- C6 as stated fails on the failure path of `semihosting_call` when the errno output
lies inside the argument block: the mock host never writes target memory, the first
word of the block is `1` before the call and `22` after it. -/
theorem C6_counterexample :
    (∀ s a0 a1 m, (mockHost .rv32 s a0 a1 m).mem = m) ∧
      (semihosting_call (mockHost .rv32) (SInt.ofInt 32 0x66) blockAddr blockAddr
        scenarioC).1.val = -1 ∧
      (loadLong .rv32 scenarioC.mem blockAddr).val = 1 ∧
      (loadLong .rv32 (semihosting_call (mockHost .rv32) (SInt.ofInt 32 0x66) blockAddr
        blockAddr scenarioC).2.mem blockAddr).val = 22 :=
  ⟨mockHost_mem .rv32, by decide, by decide, by decide⟩

/-- C6 amended (argument block invariance): if the host does not write target memory
while it services the primary trap, then memory is unchanged by
`semihosting_call_noerrno` and by `semihosting_call` on the success path; if moreover, on
the failure path, it does not write target memory while it services the errno trap, then
`semihosting_call` changes at most the four bytes behind `out_errno`, hence every word of
an argument block of `n` words that does not overlap those four bytes is the same after
the call as before, on both paths. -/
theorem C6_block_invariance {x : XLen} {H : Type} (host : Host x H)
    (id : CLong x) (data out_errno : Nat) (w : World x H)
    (hro : (host w.hostState id (ptrToLong x data) w.mem).mem = w.mem) :
    (semihosting_call_noerrno host id data w).2.mem = w.mem ∧
      (0 ≤ (semihosting_call_noerrno host id data w).1.val →
        (semihosting_call host id data out_errno w).2.mem = w.mem) ∧
      (((semihosting_call_noerrno host id data w).1.val < 0 →
          (host (host w.hostState id (ptrToLong x data) w.mem).state
            (intToLong x semihosting_sys_errno) (ptrToLong x NULL) w.mem).mem = w.mem) →
        (∀ a, a < out_errno ∨ out_errno + 4 ≤ a →
          (semihosting_call host id data out_errno w).2.mem a = w.mem a) ∧
        (∀ n, data + n * (x.bits / 8) ≤ out_errno ∨ out_errno + 4 ≤ data →
          ∀ i, i < n →
            loadLong x (semihosting_call host id data out_errno w).2.mem
                (data + i * (x.bits / 8)) =
              loadLong x w.mem (data + i * (x.bits / 8)))) := by
  have h1 : (semihosting_call_noerrno host id data w).2.mem = w.mem := by
    rw [noerrno_eq]
    exact hro
  have h2 : 0 ≤ (semihosting_call_noerrno host id data w).1.val →
      (semihosting_call host id data out_errno w).2.mem = w.mem := by
    intro h
    rw [call_of_nonneg host id data out_errno w h, h1]
  refine ⟨h1, h2, ?_⟩
  intro hro2
  have h3 : ∀ a, a < out_errno ∨ out_errno + 4 ≤ a →
      (semihosting_call host id data out_errno w).2.mem a = w.mem a := by
    intro a ha
    by_cases h : (semihosting_call_noerrno host id data w).1.val < 0
    · rw [call_of_neg host id data out_errno w h]
      have he : (errnoTrap host (semihosting_call_noerrno host id data w).2).2.mem = w.mem := by
        have h4 := hro2 h
        unfold errnoTrap
        rw [noerrno_eq, noerrno_eq]
        simp only
        rw [hro]
        exact h4
      simp only [storeInt, he]
      exact storeBytes_outside _ _ _ _ _ ha
    · rw [h2 (by omega)]
  refine ⟨h3, ?_⟩
  intro n hn i hi
  apply loadLong_congr
  intro a ha1 ha2
  apply h3
  have hmul : (i + 1) * (x.bits / 8) ≤ n * (x.bits / 8) := Nat.mul_le_mul_right _ hi
  have hexp : (i + 1) * (x.bits / 8) = i * (x.bits / 8) + x.bits / 8 := by ring
  omega

/-- Scenario C with the errno output at `0x200`, away from the three-word block at
`0x100`: the host writes nothing during the two traps, the call fails, errno is stored,
and the three words of the block are intact. -/
theorem C6_block_invariance_witness :
    (mockHost .rv32 scenarioC.hostState (SInt.ofInt 32 0x66) (ptrToLong .rv32 blockAddr)
        scenarioC.mem).mem = scenarioC.mem ∧
      (semihosting_call (mockHost .rv32) (SInt.ofInt 32 0x66) blockAddr errnoAddr
        scenarioC).1.val < 0 ∧
      ∀ i, i < 3 →
        loadLong .rv32 (semihosting_call (mockHost .rv32) (SInt.ofInt 32 0x66) blockAddr
            errnoAddr scenarioC).2.mem (blockAddr + i * (XLen.rv32.bits / 8)) =
          loadLong .rv32 scenarioC.mem (blockAddr + i * (XLen.rv32.bits / 8)) :=
  ⟨mockHost_mem .rv32 _ _ _ _, by decide,
   ((C6_block_invariance (mockHost .rv32) (SInt.ofInt 32 0x66) blockAddr errnoAddr
      scenarioC (mockHost_mem .rv32 _ _ _ _)).2.2
        (fun _ => mockHost_mem .rv32 _ _ _ _)).2 3 (by decide)⟩

/-- C8: run trap by trap without interference, `semihosting_call_step` is
`semihosting_call`, which takes no lock; when another context performs a semihosting
call between the two traps, the errno stored on the failure path is the answer of the
errno trap on the host state that the interrupting call left; and for the mock host,
whose failed call `0x66` has errno 22, an interrupting call `0x67` with errno 38 makes
the dispatcher report 38 for the failed call `0x66`. -/
theorem C8_two_traps_not_atomic :
    (∀ (x : XLen) (H : Type) (host : Host x H) (id : CLong x) (data out_errno : Nat)
        (w : World x H),
        semihosting_call_step host id data out_errno
            (semihosting_call_step host id data out_errno (CallPc.entry, w)) =
          (CallPc.returned (semihosting_call host id data out_errno w).1,
            (semihosting_call host id data out_errno w).2)) ∧
      (∀ (x : XLen) (H : Type) (host : Host x H) (id id2 : CLong x)
        (data out_errno data2 : Nat) (w : World x H),
        loadInt (semihosting_call_preempted host id data out_errno id2 data2 w).2.mem
            out_errno =
          if (semihosting_call_noerrno host id data w).1.val < 0 then
            longToInt (errnoTrap host
              (preemptingCall host id2 data2 (semihosting_call_noerrno host id data w).2)).1
          else
            loadInt (preemptingCall host id2 data2
              (semihosting_call_noerrno host id data w).2).mem out_errno) ∧
      ∃ (host : Host .rv32 MockState) (id id2 : CLong .rv32) (data data2 : Nat)
        (out_errno out_errno2 : Nat) (w : World .rv32 MockState),
        (semihosting_call host id data out_errno w).1.val < 0 ∧
        (loadInt (semihosting_call host id data out_errno w).2.mem out_errno).val = 22 ∧
        (loadInt (semihosting_call host id2 data2 out_errno2
          (semihosting_call_noerrno host id data w).2).2.mem out_errno2).val = 38 ∧
        (loadInt (semihosting_call_preempted host id data out_errno id2 data2 w).2.mem
          out_errno).val = 38 := by
  refine ⟨?_, ?_, ?_⟩
  · intro x H host id data out_errno w
    by_cases h : (semihosting_call_noerrno host id data w).1.val < 0
    · rw [call_of_neg host id data out_errno w h]
      simp only [semihosting_call_step, errnoTrap]
      rw [if_pos h]
    · rw [call_of_nonneg host id data out_errno w (by omega)]
      simp only [semihosting_call_step]
      rw [if_neg h]
  · intro x H host id id2 data out_errno data2 w
    by_cases h : (semihosting_call_noerrno host id data w).1.val < 0
    · rw [if_pos h]
      simp only [semihosting_call_preempted, semihosting_call_step, errnoTrap]
      rw [if_pos h]
      exact loadInt_storeInt _ _ _
    · rw [if_neg h]
      simp only [semihosting_call_preempted, semihosting_call_step]
      rw [if_neg h]
  · exact ⟨mockHost .rv32, SInt.ofInt 32 0x66, SInt.ofInt 32 0x67, blockAddr, NULL,
      errnoAddr, errnoAddr + 4, scenarioC, by decide⟩

/-- C9: on the failure path the errno output holds the `long` answer `E` of the errno
trap converted to `int`: `E` reduced modulo `2^32` and read as a signed 32-bit value,
which is `E` itself when `E` is in the range of `int`; two runs whose errno answers are
congruent modulo `2^32` report the same errno. -/
theorem C9_errno_int_conversion {x : XLen} {H : Type} (host : Host x H)
    (id : CLong x) (data out_errno : Nat) (w : World x H)
    (h : (semihosting_call_noerrno host id data w).1.val < 0) :
    (loadInt (semihosting_call host id data out_errno w).2.mem out_errno).val =
        (if (errnoTrap host (semihosting_call_noerrno host id data w).2).1.val % 2 ^ 32
              < 2 ^ 31 then
          (errnoTrap host (semihosting_call_noerrno host id data w).2).1.val % 2 ^ 32
        else
          (errnoTrap host (semihosting_call_noerrno host id data w).2).1.val % 2 ^ 32
            - 2 ^ 32) ∧
      (-(2 ^ 31) ≤ (errnoTrap host (semihosting_call_noerrno host id data w).2).1.val →
        (errnoTrap host (semihosting_call_noerrno host id data w).2).1.val < 2 ^ 31 →
        (loadInt (semihosting_call host id data out_errno w).2.mem out_errno).val =
          (errnoTrap host (semihosting_call_noerrno host id data w).2).1.val) ∧
      (∀ (H2 : Type) (host2 : Host x H2) (id2 : CLong x) (data2 out_errno2 : Nat)
        (w2 : World x H2),
        (semihosting_call_noerrno host2 id2 data2 w2).1.val < 0 →
        (errnoTrap host (semihosting_call_noerrno host id data w).2).1.val % 2 ^ 32 =
          (errnoTrap host2 (semihosting_call_noerrno host2 id2 data2 w2).2).1.val % 2 ^ 32 →
        loadInt (semihosting_call host id data out_errno w).2.mem out_errno =
          loadInt (semihosting_call host2 id2 data2 out_errno2 w2).2.mem out_errno2) := by
  have hl : ∀ (H1 : Type) (host1 : Host x H1) (id1 : CLong x) (data1 out1 : Nat)
      (w1 : World x H1), (semihosting_call_noerrno host1 id1 data1 w1).1.val < 0 →
      loadInt (semihosting_call host1 id1 data1 out1 w1).2.mem out1 =
        longToInt (errnoTrap host1 (semihosting_call_noerrno host1 id1 data1 w1).2).1 := by
    intro H1 host1 id1 data1 out1 w1 h1
    rw [call_of_neg host1 id1 data1 out1 w1 h1]
    exact loadInt_storeInt _ _ _
  refine ⟨?_, ?_, ?_⟩
  · rw [hl H host id data out_errno w h]
    rfl
  · intro lo hi
    rw [hl H host id data out_errno w h]
    exact longToInt_val_of_range _ lo hi
  · intro H2 host2 id2 data2 out_errno2 w2 h2 hcong
    rw [hl H host id data out_errno w h, hl H2 host2 id2 data2 out_errno2 w2 h2]
    apply SInt.eq_of_val
    simp only [longToInt, SInt.val_ofInt, wrapSigned, hcong]

/-- On RV64 the errno answers `2^32 + 22` and `22` are different and congruent modulo
`2^32`; both runs report errno `22`. -/
theorem C9_errno_int_conversion_witness :
    (semihosting_call_noerrno wideErrnoHost (SInt.ofInt 64 0x66) blockAddr
        (World.init .rv64 () (fun _ => 0))).1.val < 0 ∧
      (errnoTrap wideErrnoHost
        (semihosting_call_noerrno wideErrnoHost (SInt.ofInt 64 0x66) blockAddr
          (World.init .rv64 () (fun _ => 0))).2).1.val = 2 ^ 32 + 22 ∧
      (errnoTrap (mockHost .rv64)
        (semihosting_call_noerrno (mockHost .rv64) (SInt.ofInt 64 0x66) blockAddr
          scenarioC64).2).1.val = 22 ∧
      loadInt (semihosting_call wideErrnoHost (SInt.ofInt 64 0x66) blockAddr errnoAddr
          (World.init .rv64 () (fun _ => 0))).2.mem errnoAddr =
        loadInt (semihosting_call (mockHost .rv64) (SInt.ofInt 64 0x66) blockAddr errnoAddr
          scenarioC64).2.mem errnoAddr ∧
      (loadInt (semihosting_call (mockHost .rv64) (SInt.ofInt 64 0x66) blockAddr errnoAddr
          scenarioC64).2.mem errnoAddr).val = 22 :=
  ⟨by decide, by decide, by decide,
   (C9_errno_int_conversion wideErrnoHost (SInt.ofInt 64 0x66) blockAddr errnoAddr
      (World.init .rv64 () (fun _ => 0)) (by decide)).2.2 MockState (mockHost .rv64)
      (SInt.ofInt 64 0x66) blockAddr errnoAddr scenarioC64 (by decide) (by decide),
   by decide⟩

/-- C10: the instructions that `semihosting_call_noerrno` executes are exactly three
4-byte words, in this order: `0x01f01013` (`slli zero, zero, 0x1f`), `0x00100073`
(`ebreak`), `0x40705013` (`srai zero, zero, 0x7`). Whether or not compressed
instructions are allowed on entry and whatever the assembler would compress,
`.option norvc` makes the body assemble to these three uncompressed instructions (an
`ebreak` outside it may become the 2-byte `0x9002`). The instructions of the body write
no register: even with a debugger that could rewrite the whole state at `ebreak`, the
registers after the sequence are the ones the debugger left; with the semihosting host
every register holds what it held when the asm statement was entered, except `a0`, which
holds what the host wrote. -/
theorem C10_trap_instruction_sequence {x : XLen} {H : Type} (host : Host x H)
    (id : CLong x) (data : Nat) (w : World x H) :
    (semihosting_call_noerrno host id data w).2.fetched =
        w.fetched ++ [Code.mk 4 0x01f01013, Code.mk 4 0x00100073, Code.mk 4 0x40705013] ∧
      (∀ (rvc : Bool) (relax : Instr → Bool),
        assemble rvc relax trapAsm =
            [Insn.mk (Instr.slli regZero regZero 0x1f) false, Insn.mk Instr.ebreak false,
              Insn.mk (Instr.srai regZero regZero 0x7) false] ∧
          (assemble rvc relax trapAsm).map Insn.code =
            [Code.mk 4 0x01f01013, Code.mk 4 0x00100073, Code.mk 4 0x40705013] ∧
          ∀ c ∈ (assemble rvc relax trapAsm).map Insn.code,
            c.size = 4 ∧ c.word < 2 ^ 32 ∧ c.word % 4 = 3 ∧ c.word / 4 % 8 ≠ 7) ∧
      (assemble true (fun _ => true) [AsmLine.instr Instr.ebreak]).map Insn.code =
        [Code.mk 2 0x9002] ∧
      (∀ (dbg : World x H → World x H) (w1 : World x H),
        (execAsm dbg (assemble true (fun _ => true) trapAsm) w1).regs =
          (dbg { w1 with fetched :=
            w1.fetched ++ [Code.mk 4 0x01f01013, Code.mk 4 0x00100073] }).regs) ∧
      (∀ r, (semihosting_call_noerrno host id data w).2.regs r =
        if r = regA0 then (host w.hostState id (ptrToLong x data) w.mem).a0
        else writeReg (writeReg w.regs regA0 id) regA1 (ptrToLong x data) r) := by
  have hasm : ∀ (rvc : Bool) (relax : Instr → Bool),
      assemble rvc relax trapAsm =
        [Insn.mk (Instr.slli regZero regZero 0x1f) false, Insn.mk Instr.ebreak false,
          Insn.mk (Instr.srai regZero regZero 0x7) false] := by
    intro rvc relax
    simp [assemble, assembleLines, trapAsm]
  refine ⟨?_, ?_, by decide, ?_, ?_⟩
  · rw [noerrno_eq]
  · intro rvc relax
    rw [hasm rvc relax]
    exact ⟨rfl, by decide, by decide⟩
  · intro dbg w1
    rw [hasm]
    simp [execAsm, execInstr, writeReg, regZero, Insn.code, Instr.encode]
  · intro r
    rw [noerrno_eq]
    simp [writeReg, regA0, regA1]

end Semihosting
